import Mathlib

/-!
Shallow embedding of `src/envs/diabetes_env.py` (class `DiabetesExerciseEnv`).

Conventions of the embedding:
* Python floats are modelled as exact rationals (`ℚ`); `np.clip`, `min`, `max`
  and the float modulo `%` are translated directly.
* `math.tanh` / `np.tanh` is an abstract function `mtanh : ℚ → ℚ` threaded as a
  parameter: no claim below depends on any property of tanh beyond it being a
  function, and both sides of every reward statement use the same `mtanh`.
* The NumPy generator `np_random` is modelled as a tape of rational entropy
  values together with a cursor (`RNG`).  Each primitive draw consumes one tape
  cell; the distribution transforms keep only the support of the distribution
  (a normal sample is `mu + sigma * z` with `z` unconstrained, a uniform sample
  is mapped into `[lo, hi)`, an integer sample into `[lo, hi)` integers), which
  is what the bound/lifecycle claims depend on.  Seeding (`reset(seed=S)`) is
  modelled by handing `reset` the generator state produced by the seed: NumPy
  seeding is deterministic, so two engines seeded identically receive equal
  `RNG` values.
* The mutable object becomes explicit state passing: every method takes and
  returns the `Env` record; exceptions become `Except` results paired with the
  (unchanged) engine.
-/

namespace Diabetes

/-- Model of `np.clip(x, lo, hi)` — lower bound applied first, then upper bound. -/
def clip (x lo hi : ℚ) : ℚ := min (max x lo) hi

/-- Python float modulo `x % y`: `x - y * floor(x / y)` (sign of the result
follows `y`; the code only uses positive `y`). -/
def fmod (x y : ℚ) : ℚ := x - y * ⌊x / y⌋

/-- The NumPy generator `self.np_random`: an entropy tape with a cursor. -/
structure RNG where
  stream : ℕ → ℚ
  idx : ℕ

/-- Consume one entropy value. -/
def RNG.next (g : RNG) : ℚ × RNG := (g.stream g.idx, ⟨g.stream, g.idx + 1⟩)

/-- Model of `np_random.normal(mu, sigma)` — support is all of ℝ, modelled as
`mu + sigma * z` with `z` the raw tape value. -/
def normalSample (g : RNG) (mu sigma : ℚ) : ℚ × ℚ × RNG :=
  let zg := g.next
  (mu + sigma * zg.1, zg.1, zg.2)

/-- Model of `np_random.uniform(lo, hi)` — the raw tape value is folded into `[0, 1)`
by `fmod · 1`, then affinely mapped onto `[lo, hi)`. -/
def uniformSample (g : RNG) (lo hi : ℚ) : ℚ × RNG :=
  let zg := g.next
  (lo + (hi - lo) * fmod zg.1 1, zg.2)

/-- Model of `np_random.integers(lo, hi)` — a uniform integer in `[lo, hi)`, modelled by
folding the floor of the raw tape value into the range. -/
def integersSample (g : RNG) (lo hi : ℤ) : ℤ × RNG :=
  let zg := g.next
  (lo + ⌊zg.1⌋ % (hi - lo), zg.2)

/-- One entry of `self._action_catalog`. -/
structure Profile where
  name : String
  step_gain : ℚ
  glucose_effect : ℚ
  hr_effect : ℚ
  fatigue_delta : ℚ
  adherence_delta : ℚ
deriving DecidableEq

/-- Action id 0. -/
def restProfile : Profile := ⟨"rest", 0, 2.5, -8, -0.18, 0.05⟩

/-- Action id 1. -/
def lightWalkProfile : Profile := ⟨"light_walk", 1600, -6.5, 12, 0.04, 0.02⟩

/-- Action id 2. -/
def moderateJogProfile : Profile := ⟨"moderate_jog", 2900, -12, 24, 0.09, -0.03⟩

/-- Action id 3. -/
def highIntensityProfile : Profile := ⟨"high_intensity", 3600, -18, 36, 0.16, -0.07⟩

/-- The table `self._action_catalog` as a total map on valid ids. -/
def actionCatalog : Fin 4 → Profile
  | ⟨0, _⟩ => restProfile
  | ⟨1, _⟩ => lightWalkProfile
  | ⟨2, _⟩ => moderateJogProfile
  | ⟨3, _⟩ => highIntensityProfile
  | ⟨n + 4, h⟩ => absurd h (by omega)

/-- Lookup of `self._action_catalog[int(action)]`; `step` only evaluates this under the
`action_space.contains` guard `0 ≤ a < 4`, where `a.toNat % 4 = a.toNat`. -/
def profileOf (a : ℤ) : Profile := actionCatalog ⟨a.toNat % 4, Nat.mod_lt _ (by omega)⟩

/-- The constructor configuration retained on `self`. -/
structure Config where
  day_length : ℤ
  step_target : ℚ
  max_daily_steps : ℚ
  glucose_target : ℚ
  glucose_bounds : ℚ × ℚ
  heart_rate_bounds : ℚ × ℚ
deriving DecidableEq

/-- The six-field state vector `self.state`, ordering
`[glucose, heart_rate, fatigue, adherence, time_of_day, steps]`. -/
structure StateVec where
  glucose : ℚ
  heart_rate : ℚ
  fatigue : ℚ
  adherence : ℚ
  time_of_day : ℚ
  steps : ℚ
deriving DecidableEq

/-- The engine object: configuration, meal schedule, resting heart rate, the
optional state (`None` before the first reset and after `close`), the episode
bookkeeping and the generator. -/
structure Env where
  cfg : Config
  meal_schedule : List (ℤ × ℚ)
  resting_hr : ℚ
  state : Option StateVec
  step_count : ℕ
  last_action : ℤ
  rng : RNG

/-- The `ValueError`s the constructor can raise. -/
inductive ConfigError
  | dayLength
  | stepTarget
  | maxDailySteps
deriving DecidableEq

/-- Constructor keyword arguments (with the source's integer/float types). -/
structure InitArgs where
  day_length : ℤ
  step_target : ℤ
  max_daily_steps : ℤ
  glucose_target : ℚ
  glucose_bounds : ℚ × ℚ
  heart_rate_bounds : ℚ × ℚ

/-- Constructor `__init__`: the three explicit validations, then the attribute
assignments.  `g0` is the entropy the lazily created generator would hold
before any explicit seeding (construction itself draws nothing). -/
def init (a : InitArgs) (g0 : RNG) : Except ConfigError Env :=
  if a.day_length ≤ 0 then .error .dayLength
  else if a.step_target ≤ 0 then .error .stepTarget
  else if a.max_daily_steps < a.step_target then .error .maxDailySteps
  else .ok
    { cfg :=
        { day_length := a.day_length
          step_target := (a.step_target : ℚ)
          max_daily_steps := (a.max_daily_steps : ℚ)
          glucose_target := a.glucose_target
          glucose_bounds := a.glucose_bounds
          heart_rate_bounds := a.heart_rate_bounds }
      meal_schedule := [(8, 42), (13, 46), (19, 38)]
      resting_hr := 72
      state := none
      step_count := 0
      last_action := 0
      rng := g0 }

/-- Translation of `self._update_fatigue`. -/
def update_fatigue (cfg : Config) (fatigue : ℚ) (p : Profile) : ℚ :=
  let f1 := fatigue + p.fatigue_delta
  let f2 := if p.step_gain ≤ 0 then f1 - 0.05 * max 0 (f1 - 0.25) else f1
  let f3 := f2 + 0.015 * max 0 (p.step_gain / cfg.step_target)
  clip f3 0 1

/-- Translation of `self._update_adherence` (`mtanh` models `math.tanh`). -/
def update_adherence (mtanh : ℚ → ℚ) (adherence fatigue : ℚ) (p : Profile) : ℚ :=
  let a1 := adherence + p.adherence_delta
  let a2 := a1 - 0.12 * max 0 (fatigue - 0.78)
  let a3 := a2 + 0.03 * mtanh (0.6 - fatigue)
  clip a3 0 1

/-- Dictionary lookup in `self.meal_schedule`. -/
def lookupMeal (sched : List (ℤ × ℚ)) (h : ℤ) : Option ℚ :=
  (sched.find? (fun kv => kv.1 == h)).map (fun kv => kv.2)

/-- Computation of `int((time_of_day + self.time_step_hours) % self.day_length)`; the float
modulo with a positive modulus is non-negative, where Python `int()`
truncation coincides with the floor. -/
def next_hour (cfg : Config) (time_of_day : ℚ) : ℤ :=
  ⌊fmod (time_of_day + 1) (cfg.day_length : ℚ)⌋

/-- Translation of `self._update_glucose`: drift, noise draw, meal lookahead on the next hour
(with its own draw only when a meal is scheduled), activity effect, clip. -/
def update_glucose (cfg : Config) (sched : List (ℤ × ℚ)) (glucose : ℚ) (p : Profile)
    (time_of_day : ℚ) (g : RNG) : ℚ × RNG :=
  let drift := 0.06 * (cfg.glucose_target - glucose)
  let ng := normalSample g 0 3
  let noise := ng.1
  let g1 := ng.2.2
  let md :=
    match lookupMeal sched (next_hour cfg time_of_day) with
    | some m => let mg := normalSample g1 m 6; (mg.1, mg.2.2)
    | none => ((0 : ℚ), g1)
  let glucose1 := glucose + drift + p.glucose_effect + md.1 + noise
  (clip glucose1 cfg.glucose_bounds.1 cfg.glucose_bounds.2, md.2)

/-- Translation of `self._update_heart_rate`. -/
def update_heart_rate (cfg : Config) (resting_hr heart_rate glucose fatigue : ℚ)
    (p : Profile) (g : RNG) : ℚ × RNG :=
  let baseline_pull := 0.25 * (resting_hr + 10 * fatigue - heart_rate)
  let glucose_load := 0.04 * (glucose - cfg.glucose_target)
  let vg := normalSample g 0 2.5
  let hr1 := heart_rate + baseline_pull + p.hr_effect + glucose_load + vg.1
  (clip hr1 cfg.heart_rate_bounds.1 cfg.heart_rate_bounds.2, vg.2.2)

/-- Translation of `self._compute_reward` (`mtanh` models `np.tanh`). -/
def compute_reward (mtanh : ℚ → ℚ) (cfg : Config)
    (glucose heart_rate fatigue adherence steps time_of_day : ℚ) (p : Profile) : ℚ :=
  let glucose_component := clip (1 - |glucose - cfg.glucose_target| / 40) (-1) 1
  let activity_ratio := min (steps / cfg.step_target) 1.5
  let activity_component := 0.5 * mtanh (activity_ratio - 0.8)
  let adherence_component := 0.6 * (adherence - 0.5)
  let fatigue_penalty := -0.5 * mtanh (max 0 (fatigue - 0.35) * 2)
  let heart_rate_penalty := -0.4 * max 0 ((heart_rate - 165) / 35)
  let late1 : ℚ :=
    if time_of_day > (cfg.day_length : ℚ) * 0.6 ∧ steps < 0.45 * cfg.step_target then -0.2 else 0
  let late2 : ℚ := if p.step_gain = 0 ∧ steps < 0.2 * cfg.step_target then -0.05 else 0
  let late_day_penalty := late1 + late2
  let reward := glucose_component + activity_component + adherence_component
      + fatigue_penalty + heart_rate_penalty + late_day_penalty
  let reward1 := if glucose < 80 then reward - 0.3 else reward
  if glucose > 200 then reward1 - 0.2 else reward1

/-- Translation of `self._check_termination`: the early-return cascade. -/
def check_termination (cfg : Config) (glucose heart_rate adherence : ℚ) :
    Bool × Option String :=
  if glucose ≤ cfg.glucose_bounds.1 + 1e-6 then (true, some "severe_hypoglycemia")
  else if glucose ≥ cfg.glucose_bounds.2 - 1e-6 then (true, some "severe_hyperglycemia")
  else if heart_rate ≥ cfg.heart_rate_bounds.2 - 1e-6 then (true, some "dangerous_heart_rate")
  else if adherence ≤ 0.05 then (true, some "adherence_failure")
  else (false, none)

/-- The `info` mapping returned by `reset`. -/
structure ResetInfo where
  glucose_target : ℚ
  step_target : ℚ
deriving DecidableEq

/-- Method `reset(seed, options)`.  `g` is the generator state after
`super().reset(seed=seed)`: the seeded generator when a seed is passed (NumPy
seeding is a deterministic function of the seed), the engine's current
generator otherwise.  Returns the updated engine, the observation (a copy of
the fresh state) and the info mapping. -/
def reset (e : Env) (g : RNG) : Env × StateVec × ResetInfo :=
  let r1 := normalSample g (e.cfg.glucose_target + 15) 18
  let glucose := clip r1.1 e.cfg.glucose_bounds.1 e.cfg.glucose_bounds.2
  let r2 := normalSample r1.2.2 (e.resting_hr + 3) 5
  let heart_rate := clip r2.1 e.cfg.heart_rate_bounds.1 e.cfg.heart_rate_bounds.2
  let r3 := uniformSample r2.2.2 0.15 0.35
  let fatigue := clip r3.1 0 1
  let r4 := uniformSample r3.2 0.65 0.9
  let adherence := clip r4.1 0 1
  let r5 := integersSample r4.2 6 9
  let time_of_day : ℚ := (r5.1 : ℚ)
  let s : StateVec := ⟨glucose, heart_rate, fatigue, adherence, time_of_day, 0⟩
  ({ e with state := some s, step_count := 0, last_action := 0, rng := r5.2 },
   s, ⟨e.cfg.glucose_target, e.cfg.step_target⟩)

/-- The exceptions `step` can raise. -/
inductive StepError
  | invalidState
  | invalidAction
deriving DecidableEq

/-- The `metrics` sub-mapping of the step info. -/
structure Metrics where
  glucose : ℚ
  heart_rate : ℚ
  fatigue : ℚ
  adherence : ℚ
  steps : ℚ
  time_of_day : ℚ
deriving DecidableEq

/-- The `info` mapping returned by `step`. -/
structure StepInfo where
  step : ℕ
  action_name : String
  metrics : Metrics
  termination_reason : Option String
deriving DecidableEq

/-- The 5-tuple returned by a successful `step`. -/
structure StepOut where
  obs : StateVec
  reward : ℚ
  terminated : Bool
  truncated : Bool
  info : StepInfo
deriving DecidableEq

/-- Method `step(action)`.  Returns the engine after the call together with either
the raised exception (the engine is returned untouched: both checks precede
every mutation in the source) or the result tuple. -/
def stepE (mtanh : ℚ → ℚ) (e : Env) (a : ℤ) : Env × Except StepError StepOut :=
  match e.state with
  | none => (e, .error .invalidState)
  | some s =>
    if 0 ≤ a ∧ a < 4 then
      let p := profileOf a
      let step_count1 := e.step_count + 1
      let steps1 := min (s.steps + p.step_gain) e.cfg.max_daily_steps
      let fatigue1 := update_fatigue e.cfg s.fatigue p
      let adherence1 := update_adherence mtanh s.adherence fatigue1 p
      let gg := update_glucose e.cfg e.meal_schedule s.glucose p s.time_of_day e.rng
      let glucose1 := gg.1
      let hg := update_heart_rate e.cfg e.resting_hr s.heart_rate glucose1 fatigue1 p gg.2
      let heart_rate1 := hg.1
      let time_of_day1 := fmod (s.time_of_day + 1) (e.cfg.day_length : ℚ)
      let s1 : StateVec := ⟨glucose1, heart_rate1, fatigue1, adherence1, time_of_day1, steps1⟩
      let reward := compute_reward mtanh e.cfg glucose1 heart_rate1 fatigue1 adherence1
          steps1 time_of_day1 p
      let tr := check_termination e.cfg glucose1 heart_rate1 adherence1
      let truncated : Bool := decide (e.cfg.day_length ≤ (step_count1 : ℤ)) && !tr.1
      let reason : Option String :=
        if truncated then some (tr.2.getD "end_of_day") else tr.2
      let info : StepInfo :=
        ⟨step_count1, p.name,
         ⟨glucose1, heart_rate1, fatigue1, adherence1, steps1, time_of_day1⟩, reason⟩
      ({ e with state := some s1, step_count := step_count1, last_action := a, rng := hg.2 },
       .ok ⟨s1, reward, tr.1, truncated, info⟩)
    else (e, .error .invalidAction)

/-- Method `close()`: invalidate the state. -/
def close (e : Env) : Env := { e with state := none }

/-- The engine after a `step` call (successful or not). -/
def stepEnv (mtanh : ℚ → ℚ) (e : Env) (a : ℤ) : Env := (stepE mtanh e a).1

/-- Drive the engine through a list of actions, keeping only the engine. -/
def runActions (mtanh : ℚ → ℚ) : Env → List ℤ → Env
  | e, [] => e
  | e, a :: rest => runActions mtanh (stepEnv mtanh e a) rest

/-- Drive the engine through a list of actions, collecting every call's
outcome (observation, reward, flags, info — or the raised exception). -/
def runOutputs (mtanh : ℚ → ℚ) : Env → List ℤ → List (Except StepError StepOut)
  | _, [] => []
  | e, a :: rest => (stepE mtanh e a).2 :: runOutputs mtanh (stepE mtanh e a).1 rest

/-- The constructor constraints as the specification lists them (with the two
bounds pairs ordered), restated on the retained configuration. -/
def WFConfig (cfg : Config) : Prop :=
  0 < cfg.day_length ∧ 0 < cfg.step_target ∧ cfg.step_target ≤ cfg.max_daily_steps ∧
  cfg.glucose_bounds.1 < cfg.glucose_bounds.2 ∧
  cfg.heart_rate_bounds.1 < cfg.heart_rate_bounds.2

instance (cfg : Config) : Decidable (WFConfig cfg) := by unfold WFConfig; infer_instance

/-- The per-field declared bounds of the observation vector. -/
def ObsInBounds (cfg : Config) (s : StateVec) : Prop :=
  cfg.glucose_bounds.1 ≤ s.glucose ∧ s.glucose ≤ cfg.glucose_bounds.2 ∧
  cfg.heart_rate_bounds.1 ≤ s.heart_rate ∧ s.heart_rate ≤ cfg.heart_rate_bounds.2 ∧
  0 ≤ s.fatigue ∧ s.fatigue ≤ 1 ∧
  0 ≤ s.adherence ∧ s.adherence ≤ 1 ∧
  0 ≤ s.time_of_day ∧ s.time_of_day ≤ (cfg.day_length : ℚ) - 1 ∧
  0 ≤ s.steps ∧ s.steps ≤ cfg.max_daily_steps

instance (cfg : Config) (s : StateVec) : Decidable (ObsInBounds cfg s) := by
  unfold ObsInBounds; infer_instance

/-- The maintained state invariant: the declared bounds plus integrality of
`time_of_day` (the field only ever holds whole hours below `day_length`). -/
def StateInv (cfg : Config) (s : StateVec) : Prop :=
  ObsInBounds cfg s ∧ ∃ n : ℤ, 0 ≤ n ∧ s.time_of_day = (n : ℚ) ∧ n < cfg.day_length

/-! ### Basic facts about the arithmetic helpers -/

theorem clip_le_right (x lo hi : ℚ) : clip x lo hi ≤ hi := min_le_right _ _

theorem le_clip {lo hi : ℚ} (x : ℚ) (h : lo ≤ hi) : lo ≤ clip x lo hi :=
  le_min (le_max_right _ _) h

theorem le_clip_self (x lo hi : ℚ) (hx : x ≤ hi) : x ≤ clip x lo hi := by
  unfold clip
  exact le_min (le_max_left _ _) hx

/-- The float modulo of an integer value by a positive integer modulus is the
(Euclidean) integer remainder. -/
theorem fmod_intCast (m L : ℤ) (hL : 0 < L) :
    fmod (m : ℚ) (L : ℚ) = ((m % L : ℤ) : ℚ) := by
  have htn : ((L.toNat : ℕ) : ℤ) = L := Int.toNat_of_nonneg hL.le
  have hd : ((L.toNat : ℕ) : ℚ) = (L : ℚ) := by exact_mod_cast congrArg (fun z : ℤ => (z : ℚ)) htn
  unfold fmod
  rw [← hd, Rat.floor_intCast_div_natCast, htn, hd, Int.emod_def]
  push_cast
  ring

theorem profile_gain_nonneg (a : ℤ) : 0 ≤ (profileOf a).step_gain := by
  have h : ∀ i : Fin 4, 0 ≤ (actionCatalog i).step_gain := by decide
  exact h _

theorem update_fatigue_mem (cfg : Config) (f : ℚ) (p : Profile) :
    0 ≤ update_fatigue cfg f p ∧ update_fatigue cfg f p ≤ 1 := by
  unfold update_fatigue
  exact ⟨le_clip _ (by norm_num), clip_le_right _ _ _⟩

theorem update_adherence_mem (mtanh : ℚ → ℚ) (ad f : ℚ) (p : Profile) :
    0 ≤ update_adherence mtanh ad f p ∧ update_adherence mtanh ad f p ≤ 1 := by
  unfold update_adherence
  exact ⟨le_clip _ (by norm_num), clip_le_right _ _ _⟩

theorem update_glucose_mem (cfg : Config) (sched : List (ℤ × ℚ)) (gl : ℚ) (p : Profile)
    (t : ℚ) (g : RNG) (hb : cfg.glucose_bounds.1 ≤ cfg.glucose_bounds.2) :
    cfg.glucose_bounds.1 ≤ (update_glucose cfg sched gl p t g).1 ∧
      (update_glucose cfg sched gl p t g).1 ≤ cfg.glucose_bounds.2 := by
  unfold update_glucose
  exact ⟨le_clip _ hb, clip_le_right _ _ _⟩

theorem update_heart_rate_mem (cfg : Config) (rhr hr gl f : ℚ) (p : Profile) (g : RNG)
    (hb : cfg.heart_rate_bounds.1 ≤ cfg.heart_rate_bounds.2) :
    cfg.heart_rate_bounds.1 ≤ (update_heart_rate cfg rhr hr gl f p g).1 ∧
      (update_heart_rate cfg rhr hr gl f p g).1 ≤ cfg.heart_rate_bounds.2 := by
  unfold update_heart_rate
  exact ⟨le_clip _ hb, clip_le_right _ _ _⟩

theorem check_termination_false_none (cfg : Config) (gl hr ad : ℚ)
    (h : (check_termination cfg gl hr ad).1 = false) :
    (check_termination cfg gl hr ad).2 = none := by
  unfold check_termination at *
  split_ifs at h ⊢
  all_goals simp_all

theorem check_termination_ne_end (cfg : Config) (gl hr ad : ℚ) :
    (check_termination cfg gl hr ad).2 ≠ some "end_of_day" := by
  unfold check_termination
  split_ifs <;> simp

/-! ### An explicit description of a successful `step` call -/

/-- The state vector a successful `step` writes back, as a function of the
pre-step state (mirrors the update order of `step`). -/
def postState (mtanh : ℚ → ℚ) (e : Env) (s : StateVec) (a : ℤ) : StateVec :=
  let p := profileOf a
  let steps1 := min (s.steps + p.step_gain) e.cfg.max_daily_steps
  let fatigue1 := update_fatigue e.cfg s.fatigue p
  let adherence1 := update_adherence mtanh s.adherence fatigue1 p
  let gg := update_glucose e.cfg e.meal_schedule s.glucose p s.time_of_day e.rng
  let hg := update_heart_rate e.cfg e.resting_hr s.heart_rate gg.1 fatigue1 p gg.2
  ⟨gg.1, hg.1, fatigue1, adherence1, fmod (s.time_of_day + 1) (e.cfg.day_length : ℚ), steps1⟩

/-- The generator state after a successful `step` (two or three draws). -/
def postRNG (e : Env) (s : StateVec) (a : ℤ) : RNG :=
  let p := profileOf a
  let gg := update_glucose e.cfg e.meal_schedule s.glucose p s.time_of_day e.rng
  (update_heart_rate e.cfg e.resting_hr s.heart_rate gg.1 (update_fatigue e.cfg s.fatigue p)
    p gg.2).2

theorem postState_steps (mtanh : ℚ → ℚ) (e : Env) (s : StateVec) (a : ℤ) :
    (postState mtanh e s a).steps =
      min (s.steps + (profileOf a).step_gain) e.cfg.max_daily_steps := rfl

theorem postState_time (mtanh : ℚ → ℚ) (e : Env) (s : StateVec) (a : ℤ) :
    (postState mtanh e s a).time_of_day =
      fmod (s.time_of_day + 1) (e.cfg.day_length : ℚ) := rfl

/-- What `step` returns when the state is initialised and the action valid. -/
theorem stepE_ok_eq (mtanh : ℚ → ℚ) (e : Env) (s : StateVec) (a : ℤ)
    (hs : e.state = some s) (ha : 0 ≤ a ∧ a < 4) :
    stepE mtanh e a =
      ({ e with state := some (postState mtanh e s a), step_count := e.step_count + 1,
                last_action := a, rng := postRNG e s a },
       Except.ok
         { obs := postState mtanh e s a
           reward := compute_reward mtanh e.cfg (postState mtanh e s a).glucose
             (postState mtanh e s a).heart_rate (postState mtanh e s a).fatigue
             (postState mtanh e s a).adherence (postState mtanh e s a).steps
             (postState mtanh e s a).time_of_day (profileOf a)
           terminated := (check_termination e.cfg (postState mtanh e s a).glucose
             (postState mtanh e s a).heart_rate (postState mtanh e s a).adherence).1
           truncated := decide (e.cfg.day_length ≤ ((e.step_count + 1 : ℕ) : ℤ)) &&
             !(check_termination e.cfg (postState mtanh e s a).glucose
               (postState mtanh e s a).heart_rate (postState mtanh e s a).adherence).1
           info :=
             ⟨e.step_count + 1, (profileOf a).name,
              ⟨(postState mtanh e s a).glucose, (postState mtanh e s a).heart_rate,
               (postState mtanh e s a).fatigue, (postState mtanh e s a).adherence,
               (postState mtanh e s a).steps, (postState mtanh e s a).time_of_day⟩,
              if (decide (e.cfg.day_length ≤ ((e.step_count + 1 : ℕ) : ℤ)) &&
                  !(check_termination e.cfg (postState mtanh e s a).glucose
                    (postState mtanh e s a).heart_rate
                    (postState mtanh e s a).adherence).1) = true then
                some ((check_termination e.cfg (postState mtanh e s a).glucose
                  (postState mtanh e s a).heart_rate
                  (postState mtanh e s a).adherence).2.getD "end_of_day")
              else
                (check_termination e.cfg (postState mtanh e s a).glucose
                  (postState mtanh e s a).heart_rate
                  (postState mtanh e s a).adherence).2⟩ }) := by
  unfold stepE postState postRNG
  rw [hs]
  dsimp only
  rw [if_pos ha]

/-- A successful `step` call presupposes an initialised state and a valid
action id. -/
theorem stepE_ok_inv (mtanh : ℚ → ℚ) (e : Env) (a : ℤ) (e1 : Env) (out : StepOut)
    (h : stepE mtanh e a = (e1, Except.ok out)) :
    ∃ s, e.state = some s ∧ (0 ≤ a ∧ a < 4) := by
  cases hst : e.state with
  | none =>
    unfold stepE at h
    rw [hst] at h
    exact absurd h (by simp)
  | some s =>
    by_cases ha : 0 ≤ a ∧ a < 4
    · exact ⟨s, rfl, ha⟩
    · unfold stepE at h
      rw [hst] at h
      dsimp only at h
      rw [if_neg ha] at h
      exact absurd h (by simp)

/-- The update pipeline preserves the state invariant. -/
theorem postState_stateInv (mtanh : ℚ → ℚ) (e : Env) (s : StateVec) (a : ℤ)
    (hWF : WFConfig e.cfg) (hInv : StateInv e.cfg s) :
    StateInv e.cfg (postState mtanh e s a) := by
  obtain ⟨hL, hst, hmax, hgb, hhb⟩ := hWF
  obtain ⟨hB, n, hn0, hteq, hnL⟩ := hInv
  have hgl := update_glucose_mem e.cfg e.meal_schedule s.glucose (profileOf a) s.time_of_day
    e.rng hgb.le
  have hhr := update_heart_rate_mem e.cfg e.resting_hr s.heart_rate
    (update_glucose e.cfg e.meal_schedule s.glucose (profileOf a) s.time_of_day e.rng).1
    (update_fatigue e.cfg s.fatigue (profileOf a)) (profileOf a)
    (update_glucose e.cfg e.meal_schedule s.glucose (profileOf a) s.time_of_day e.rng).2 hhb.le
  have hfa := update_fatigue_mem e.cfg s.fatigue (profileOf a)
  have had := update_adherence_mem mtanh s.adherence
    (update_fatigue e.cfg s.fatigue (profileOf a)) (profileOf a)
  have hsteps0 : 0 ≤ s.steps := hB.2.2.2.2.2.2.2.2.2.2.1
  have hstepsM : s.steps ≤ e.cfg.max_daily_steps := hB.2.2.2.2.2.2.2.2.2.2.2
  have hgain := profile_gain_nonneg a
  have htime : (postState mtanh e s a).time_of_day = (((n + 1) % e.cfg.day_length : ℤ) : ℚ) := by
    rw [postState_time, hteq]
    have : ((n : ℚ) + 1) = ((n + 1 : ℤ) : ℚ) := by push_cast; ring
    rw [this, fmod_intCast _ _ hL]
  have hm0 : 0 ≤ (n + 1) % e.cfg.day_length := Int.emod_nonneg _ (by omega)
  have hmL : (n + 1) % e.cfg.day_length < e.cfg.day_length := Int.emod_lt_of_pos _ hL
  refine ⟨⟨hgl.1, hgl.2, hhr.1, hhr.2, hfa.1, hfa.2, had.1, had.2, ?_, ?_, ?_, ?_⟩,
    (n + 1) % e.cfg.day_length, hm0, htime, hmL⟩
  · rw [htime]
    exact_mod_cast hm0
  · rw [htime]
    have : (n + 1) % e.cfg.day_length ≤ e.cfg.day_length - 1 := by omega
    calc (((n + 1) % e.cfg.day_length : ℤ) : ℚ) ≤ ((e.cfg.day_length - 1 : ℤ) : ℚ) := by
          exact_mod_cast this
      _ = (e.cfg.day_length : ℚ) - 1 := by push_cast; ring
  · rw [postState_steps]
    exact le_min (by linarith) (by linarith [hst, hmax])
  · rw [postState_steps]
    exact min_le_right _ _

/-- The morning-hour sample lies in `[lo, hi)`. -/
theorem integersSample_mem (g : RNG) (lo hi : ℤ) (h : lo < hi) :
    lo ≤ (integersSample g lo hi).1 ∧ (integersSample g lo hi).1 < hi := by
  unfold integersSample RNG.next
  dsimp only
  constructor
  · have := Int.emod_nonneg ⌊g.stream g.idx⌋ (by omega : hi - lo ≠ 0)
    omega
  · have := Int.emod_lt_of_pos ⌊g.stream g.idx⌋ (by omega : 0 < hi - lo)
    omega

/-- Any state vector of the shape `reset` produces satisfies the invariant
(for day lengths of at least 9, so that the sampled morning hours 6–8 fit
below `day_length`). -/
theorem stateInv_reset_shape (cfg : Config) (hWF : WFConfig cfg) (h9 : 9 ≤ cfg.day_length)
    (a b c d : ℚ) (X : RNG) :
    StateInv cfg ⟨clip a cfg.glucose_bounds.1 cfg.glucose_bounds.2,
      clip b cfg.heart_rate_bounds.1 cfg.heart_rate_bounds.2,
      clip c 0 1, clip d 0 1, ((integersSample X 6 9).1 : ℚ), 0⟩ := by
  obtain ⟨hL, hst, hmax, hgb, hhb⟩ := hWF
  obtain ⟨h6, h9'⟩ := integersSample_mem X 6 9 (by norm_num)
  refine ⟨⟨le_clip _ hgb.le, clip_le_right _ _ _, le_clip _ hhb.le, clip_le_right _ _ _,
    le_clip _ (by norm_num), clip_le_right _ _ _, le_clip _ (by norm_num),
    clip_le_right _ _ _, ?_, ?_, le_refl 0, le_trans hst.le hmax⟩,
    (integersSample X 6 9).1, by omega, rfl, by omega⟩
  · show (0 : ℚ) ≤ ((integersSample X 6 9).1 : ℚ)
    exact_mod_cast (by omega : (0 : ℤ) ≤ (integersSample X 6 9).1)
  · show ((integersSample X 6 9).1 : ℚ) ≤ (cfg.day_length : ℚ) - 1
    have hle : (integersSample X 6 9).1 ≤ cfg.day_length - 1 := by omega
    have hc : ((integersSample X 6 9).1 : ℚ) ≤ ((cfg.day_length - 1 : ℤ) : ℚ) := by
      exact_mod_cast hle
    push_cast at hc
    linarith

/-- The method `reset` establishes the state invariant. -/
theorem reset_stateInv (e : Env) (g : RNG) (hWF : WFConfig e.cfg)
    (h9 : 9 ≤ e.cfg.day_length) : StateInv e.cfg (reset e g).2.1 := by
  unfold reset
  dsimp only
  exact stateInv_reset_shape e.cfg hWF h9 _ _ _ _ _

/-! ### Concrete fixtures (the default construction of the source) -/

/-- An all-zeros entropy tape. -/
def rng0 : RNG := ⟨fun _ => 0, 0⟩

/-- An all-ones entropy tape. -/
def rng1 : RNG := ⟨fun _ => 1, 0⟩

/-- The constructor's default keyword arguments. -/
def defaultArgs : InitArgs := ⟨24, 9000, 18000, 110, (60, 350), (50, 190)⟩

/-- The configuration retained from the default arguments. -/
def defaultCfg : Config := ⟨24, 9000, 18000, 110, (60, 350), (50, 190)⟩

/-- The default `self.meal_schedule`. -/
def defaultMeals : List (ℤ × ℚ) := [(8, 42), (13, 46), (19, 38)]

/-- The engine as constructed with default arguments (before any reset). -/
def defaultEnv : Env := ⟨defaultCfg, defaultMeals, 72, none, 0, 0, rng0⟩

/-- A plain in-bounds state vector. -/
def sv0 : StateVec := ⟨110, 72, 0.2, 0.8, 6, 0⟩

/-- A default engine holding an initialised state. -/
def readyEnv : Env := ⟨defaultCfg, defaultMeals, 72, some sv0, 0, 0, rng0⟩

/-! ### Claims -/

/-- Claim C2, counterexample: with `glucose_bounds = (100, 100)` the
constraint "glucose_bounds low < high" is violated, yet construction
succeeds — the constructor validates only `day_length`, `step_target` and
`max_daily_steps`. -/
theorem claim2_counterexample :
    ¬ ((100 : ℚ) < 100) ∧
      (init ⟨24, 9000, 18000, 110, (100, 100), (50, 190)⟩ rng0).isOk = true := by
  exact ⟨by decide, rfl⟩

/-- Claim C2 (amended): construction raises a configuration error if and only
if `day_length ≤ 0`, or `step_target ≤ 0`, or `max_daily_steps <
step_target`; the constructor itself performs no validation of the glucose or
heart-rate bounds pairs. -/
theorem claim2_amended (a : InitArgs) (g0 : RNG) :
    (∃ err, init a g0 = Except.error err) ↔
      (a.day_length ≤ 0 ∨ a.step_target ≤ 0 ∨ a.max_daily_steps < a.step_target) := by
  unfold init
  split_ifs with h1 h2 h3
  · simp [h1]
  · simp [h2]
  · simp [h3]
  · simp [h1, h2, h3]

/-- Witness for the amended C2 at a rejected argument set (`day_length = 0`):
the error condition holds and construction fails. -/
theorem claim2_witness :
    ((∃ err, init ⟨0, 9000, 18000, 110, (60, 350), (50, 190)⟩ rng0 = Except.error err) ↔
      ((0 : ℤ) ≤ 0 ∨ (9000 : ℤ) ≤ 0 ∨ (18000 : ℤ) < 9000)) :=
  claim2_amended ⟨0, 9000, 18000, 110, (60, 350), (50, 190)⟩ rng0

/-- Claim C7: with an initialised state, an action id outside `[0, 4)` makes
`step` raise the invalid-action error and leaves the engine (state vector,
step counter, last-action record) exactly as it was. -/
theorem claim7_invalid_action (mtanh : ℚ → ℚ) (e : Env) (s : StateVec) (a : ℤ)
    (hs : e.state = some s) (ha : a < 0 ∨ 4 ≤ a) :
    stepE mtanh e a = (e, Except.error StepError.invalidAction) := by
  have hna : ¬ (0 ≤ a ∧ a < 4) := by omega
  unfold stepE
  rw [hs]
  dsimp only
  rw [if_neg hna]

/-- Witness for C7 at the concrete ready engine and action id 4. -/
theorem claim7_witness :
    stepE (fun _ => 0) readyEnv 4 = (readyEnv, Except.error StepError.invalidAction) :=
  claim7_invalid_action (fun _ => 0) readyEnv sv0 4 rfl (by decide)

/-- Claim C8: with an undefined state (before the first reset, or after
`close`, which returns the state to `none`), `step` raises the invalid-state
error for every action and returns the engine untouched, and a subsequent
`reset` re-establishes a defined state. -/
theorem claim8_invalid_state (mtanh : ℚ → ℚ) (e e2 : Env) (h : e.state = none) :
    (∀ a, stepE mtanh e a = (e, Except.error StepError.invalidState)) ∧
    (close e2).state = none ∧
    (∀ g, ((reset e g).1.state).isSome = true ∧
      ((reset (close e2) g).1.state).isSome = true) := by
  refine ⟨?_, rfl, ?_⟩
  · intro a
    unfold stepE
    rw [h]
  · intro g
    exact ⟨rfl, rfl⟩

/-- Witness for C8 at the freshly constructed default engine. -/
theorem claim8_witness :
    stepE (fun _ => 0) defaultEnv 0 = (defaultEnv, Except.error StepError.invalidState) ∧
    (close readyEnv).state = none ∧
    ((reset defaultEnv rng0).1.state).isSome = true := by
  obtain ⟨h1, h2, h3⟩ := claim8_invalid_state (fun _ => 0) defaultEnv readyEnv rfl
  exact ⟨h1 0, h2, (h3 rng0).1⟩

/-- Claim C4: the termination predicate checks its four conditions in
priority order with first match winning, and reports no reason otherwise. -/
theorem claim4_termination_priority (cfg : Config) (gl hr ad : ℚ) :
    (gl ≤ cfg.glucose_bounds.1 + 1e-6 →
       check_termination cfg gl hr ad = (true, some "severe_hypoglycemia")) ∧
    (¬ gl ≤ cfg.glucose_bounds.1 + 1e-6 → gl ≥ cfg.glucose_bounds.2 - 1e-6 →
       check_termination cfg gl hr ad = (true, some "severe_hyperglycemia")) ∧
    (¬ gl ≤ cfg.glucose_bounds.1 + 1e-6 → ¬ gl ≥ cfg.glucose_bounds.2 - 1e-6 →
       hr ≥ cfg.heart_rate_bounds.2 - 1e-6 →
       check_termination cfg gl hr ad = (true, some "dangerous_heart_rate")) ∧
    (¬ gl ≤ cfg.glucose_bounds.1 + 1e-6 → ¬ gl ≥ cfg.glucose_bounds.2 - 1e-6 →
       ¬ hr ≥ cfg.heart_rate_bounds.2 - 1e-6 → ad ≤ 0.05 →
       check_termination cfg gl hr ad = (true, some "adherence_failure")) ∧
    (¬ gl ≤ cfg.glucose_bounds.1 + 1e-6 → ¬ gl ≥ cfg.glucose_bounds.2 - 1e-6 →
       ¬ hr ≥ cfg.heart_rate_bounds.2 - 1e-6 → ¬ ad ≤ 0.05 →
       check_termination cfg gl hr ad = (false, none)) := by
  unfold check_termination
  refine ⟨?_, ?_, ?_, ?_, ?_⟩
  · intro h1
    rw [if_pos h1]
  · intro h1 h2
    rw [if_neg h1, if_pos h2]
  · intro h1 h2 h3
    rw [if_neg h1, if_neg h2, if_pos h3]
  · intro h1 h2 h3 h4
    rw [if_neg h1, if_neg h2, if_neg h3, if_pos h4]
  · intro h1 h2 h3 h4
    rw [if_neg h1, if_neg h2, if_neg h3, if_neg h4]

/-- Witness for C4: glucose at the default lower bound terminates with the
hypoglycemia reason. -/
theorem claim4_witness :
    ((60 : ℚ) ≤ defaultCfg.glucose_bounds.1 + 1e-6) ∧
      check_termination defaultCfg 60 72 0.5 = (true, some "severe_hypoglycemia") :=
  ⟨by norm_num [defaultCfg],
   (claim4_termination_priority defaultCfg 60 72 0.5).1 (by norm_num [defaultCfg])⟩

/-- The reward, written as the specification's flat sum of components. -/
theorem compute_reward_formula (mtanh : ℚ → ℚ) (cfg : Config)
    (gl hr f ad st t : ℚ) (p : Profile) :
    compute_reward mtanh cfg gl hr f ad st t p =
      clip (1 - |gl - cfg.glucose_target| / 40) (-1) 1
      + 0.5 * mtanh (min (st / cfg.step_target) 1.5 - 0.8)
      + 0.6 * (ad - 0.5)
      + (-0.5) * mtanh (max 0 (f - 0.35) * 2)
      + (-0.4) * max 0 ((hr - 165) / 35)
      + (if t > (cfg.day_length : ℚ) * 0.6 ∧ st < 0.45 * cfg.step_target then -0.2 else 0)
      + (if p.step_gain = 0 ∧ st < 0.2 * cfg.step_target then -0.05 else 0)
      + (if gl < 80 then -0.3 else 0)
      + (if gl > 200 then -0.2 else 0) := by
  unfold compute_reward
  split_ifs <;> ring

/-- Claim C3: the reward returned by `step` is the sum of the glucose,
activity, adherence, fatigue and heart-rate components, the two late-day
penalties and the two flat out-of-range penalties, all evaluated on the
updated (post-step) field values of the returned observation. -/
theorem claim3_reward (mtanh : ℚ → ℚ) (e : Env) (a : ℤ) (e1 : Env) (out : StepOut)
    (h : stepE mtanh e a = (e1, Except.ok out)) :
    out.reward =
      clip (1 - |out.obs.glucose - e.cfg.glucose_target| / 40) (-1) 1
      + 0.5 * mtanh (min (out.obs.steps / e.cfg.step_target) 1.5 - 0.8)
      + 0.6 * (out.obs.adherence - 0.5)
      + (-0.5) * mtanh (max 0 (out.obs.fatigue - 0.35) * 2)
      + (-0.4) * max 0 ((out.obs.heart_rate - 165) / 35)
      + (if out.obs.time_of_day > (e.cfg.day_length : ℚ) * 0.6 ∧
            out.obs.steps < 0.45 * e.cfg.step_target then -0.2 else 0)
      + (if (profileOf a).step_gain = 0 ∧ out.obs.steps < 0.2 * e.cfg.step_target
           then -0.05 else 0)
      + (if out.obs.glucose < 80 then -0.3 else 0)
      + (if out.obs.glucose > 200 then -0.2 else 0) := by
  obtain ⟨s, hs, ha⟩ := stepE_ok_inv mtanh e a e1 out h
  rw [stepE_ok_eq mtanh e s a hs ha] at h
  injection h with hEnv hOut
  injection hOut with hOut
  subst hOut
  exact compute_reward_formula mtanh e.cfg _ _ _ _ _ _ _

/-- Claim C5: `truncated` is set exactly when the incremented step counter has
reached `day_length` and the step did not terminate; hence `terminated` and
`truncated` never both hold, and the info reason is "end_of_day" exactly on
truncation. -/
theorem claim5_truncation (mtanh : ℚ → ℚ) (e : Env) (a : ℤ) (e1 : Env) (out : StepOut)
    (h : stepE mtanh e a = (e1, Except.ok out)) :
    (out.truncated = true ↔
      (e.cfg.day_length ≤ (e1.step_count : ℤ) ∧ out.terminated = false)) ∧
    ¬ (out.terminated = true ∧ out.truncated = true) ∧
    (out.truncated = true ↔ out.info.termination_reason = some "end_of_day") := by
  obtain ⟨s, hs, ha⟩ := stepE_ok_inv mtanh e a e1 out h
  rw [stepE_ok_eq mtanh e s a hs ha] at h
  injection h with hEnv hOut
  injection hOut with hOut
  subst hOut
  subst hEnv
  dsimp only
  set T := check_termination e.cfg (postState mtanh e s a).glucose
    (postState mtanh e s a).heart_rate (postState mtanh e s a).adherence with hT
  have hne : T.2 ≠ some "end_of_day" := by
    rw [hT]
    exact check_termination_ne_end _ _ _ _
  refine ⟨?_, ?_, ?_⟩
  · cases h1 : T.1 <;> simp [Bool.and_eq_true, decide_eq_true_eq]
  · rintro ⟨ht, htr⟩
    rw [ht] at htr
    simp at htr
  · constructor
    · intro htr
      have hT1 : T.1 = false := by
        cases h1 : T.1
        · rfl
        · rw [h1] at htr
          simp at htr
      have hT2 : T.2 = none := by
        rw [hT]
        exact check_termination_false_none _ _ _ _ (by rw [← hT]; exact hT1)
      rw [if_pos htr, hT2]
      rfl
    · intro hreason
      by_contra hflag
      rw [if_neg hflag] at hreason
      exact hne hreason

/-- A throwaway result record (only used as a `getD` default). -/
def junkOut : StepOut := ⟨sv0, 0, false, false, ⟨0, "none", ⟨0, 0, 0, 0, 0, 0⟩, none⟩⟩

/-- The result of stepping the concrete ready engine with action 0. -/
def out0 : StepOut := (stepE (fun _ => 0) readyEnv 0).2.toOption.getD junkOut

/-- Witness for C3 at the concrete ready engine and action 0. -/
theorem claim3_witness :
    out0.reward =
      clip (1 - |out0.obs.glucose - readyEnv.cfg.glucose_target| / 40) (-1) 1
      + 0.5 * (fun _ => (0 : ℚ)) (min (out0.obs.steps / readyEnv.cfg.step_target) 1.5 - 0.8)
      + 0.6 * (out0.obs.adherence - 0.5)
      + (-0.5) * (fun _ => (0 : ℚ)) (max 0 (out0.obs.fatigue - 0.35) * 2)
      + (-0.4) * max 0 ((out0.obs.heart_rate - 165) / 35)
      + (if out0.obs.time_of_day > (readyEnv.cfg.day_length : ℚ) * 0.6 ∧
            out0.obs.steps < 0.45 * readyEnv.cfg.step_target then -0.2 else 0)
      + (if (profileOf 0).step_gain = 0 ∧ out0.obs.steps < 0.2 * readyEnv.cfg.step_target
           then -0.05 else 0)
      + (if out0.obs.glucose < 80 then -0.3 else 0)
      + (if out0.obs.glucose > 200 then -0.2 else 0) :=
  claim3_reward (fun _ => 0) readyEnv 0 (stepE (fun _ => 0) readyEnv 0).1 out0 rfl

/-- Witness for C5 at the concrete ready engine and action 0. -/
theorem claim5_witness :
    (out0.truncated = true ↔
      (readyEnv.cfg.day_length ≤ (((stepE (fun _ => 0) readyEnv 0).1).step_count : ℤ) ∧
        out0.terminated = false)) ∧
    ¬ (out0.terminated = true ∧ out0.truncated = true) ∧
    (out0.truncated = true ↔ out0.info.termination_reason = some "end_of_day") :=
  claim5_truncation (fun _ => 0) readyEnv 0 (stepE (fun _ => 0) readyEnv 0).1 out0 rfl

/-- Claim C1 (amended: restricted to configurations with `day_length ≥ 9`,
since `reset` always samples a morning hour in `[6, 9)`): after every `reset`,
and after every successful `step` from a state satisfying the invariant, each
of the six fields of the returned observation lies within its declared bound,
and the state invariant is re-established (so the bounds hold along every
trajectory of resets and steps). -/
theorem claim1_amended (mtanh : ℚ → ℚ) (cfg : Config) (hWF : WFConfig cfg)
    (h9 : 9 ≤ cfg.day_length) :
    (∀ e g, e.cfg = cfg →
       ObsInBounds cfg (reset e g).2.1 ∧ StateInv cfg (reset e g).2.1 ∧
       (reset e g).1.state = some (reset e g).2.1 ∧ (reset e g).1.cfg = cfg) ∧
    (∀ e s a e1 out, e.cfg = cfg → e.state = some s → StateInv cfg s →
       stepE mtanh e a = (e1, Except.ok out) →
       ObsInBounds cfg out.obs ∧ StateInv cfg out.obs ∧
       e1.state = some out.obs ∧ e1.cfg = cfg) := by
  constructor
  · intro e g hcfg
    have h1 : StateInv e.cfg (reset e g).2.1 :=
      reset_stateInv e g (by rw [hcfg]; exact hWF) (by rw [hcfg]; exact h9)
    rw [hcfg] at h1
    exact ⟨h1.1, h1, rfl, hcfg⟩
  · intro e s a e1 out hcfg hs hInv h
    obtain ⟨s2, hs2, ha⟩ := stepE_ok_inv mtanh e a e1 out h
    rw [hs] at hs2
    have hss : s2 = s := (Option.some.inj hs2).symm
    subst hss
    rw [stepE_ok_eq mtanh e s2 a hs ha] at h
    injection h with hEnv hOut
    injection hOut with hOut
    subst hOut
    subst hEnv
    have hpost : StateInv e.cfg (postState mtanh e s2 a) :=
      postState_stateInv mtanh e s2 a (by rw [hcfg]; exact hWF) (by rw [hcfg]; exact hInv)
    rw [hcfg] at hpost
    exact ⟨hpost.1, hpost, rfl, hcfg⟩

/-- Witness for C1 at the default configuration and an all-zeros tape. -/
theorem claim1_witness :
    WFConfig defaultCfg ∧ (9 : ℤ) ≤ defaultCfg.day_length ∧
      ObsInBounds defaultCfg (reset defaultEnv rng0).2.1 :=
  ⟨by decide, by decide,
   (((claim1_amended (fun _ => 0) defaultCfg (by decide) (by decide)).1
      defaultEnv rng0 rfl)).1⟩

/-- A degenerate but accepted configuration: one-hour days. -/
def smallArgs : InitArgs := ⟨1, 1, 1, 110, (60, 350), (50, 190)⟩

/-- The engine constructed from `smallArgs`. -/
def smallEnv : Env := ⟨⟨1, 1, 1, 110, (60, 350), (50, 190)⟩, defaultMeals, 72, none, 0, 0, rng0⟩

/-- Claim C1, counterexample to the claim as stated (over every accepted
configuration): `day_length = 1` is accepted by the constructor, yet after
`reset` the sampled `time_of_day` is 6, far outside the declared bound
`[0, day_length - 1] = [0, 0]`. -/
theorem claim1_counterexample :
    (init smallArgs rng0).isOk = true ∧
    (init smallArgs rng0).toOption.map Env.cfg = some smallEnv.cfg ∧
    (reset smallEnv rng0).2.1.time_of_day = 6 ∧
    ¬ ((reset smallEnv rng0).2.1.time_of_day ≤ (smallEnv.cfg.day_length : ℚ) - 1) ∧
    ¬ ObsInBounds smallEnv.cfg (reset smallEnv rng0).2.1 := by
  have ht : (reset smallEnv rng0).2.1.time_of_day = 6 := by
    simp [reset, integersSample, uniformSample, normalSample, RNG.next, rng0]
  have hnb : ¬ ((reset smallEnv rng0).2.1.time_of_day ≤ (smallEnv.cfg.day_length : ℚ) - 1) := by
    rw [ht]
    norm_num [smallEnv]
  exact ⟨rfl, rfl, ht, hnb, fun hOB => hnb hOB.2.2.2.2.2.2.2.2.2.1⟩

/-- Claim C10: `time_of_day` is always an exact whole number: `reset` samples
an integer in `[6, 9)`, `step` advances it to `(n + 1) % day_length` exactly,
and the glucose update's integer conversion of the next hour is exact, giving
the anticipated meal hour `(time_of_day + 1) % day_length`. -/
theorem claim10_time_integrality (mtanh : ℚ → ℚ) (cfg : Config) (hL : 0 < cfg.day_length) :
    (∀ e g, e.cfg = cfg →
       ∃ n : ℤ, (reset e g).2.1.time_of_day = (n : ℚ) ∧ 6 ≤ n ∧ n < 9) ∧
    (∀ e s a e1 out (n : ℤ), e.cfg = cfg → e.state = some s →
       s.time_of_day = (n : ℚ) → stepE mtanh e a = (e1, Except.ok out) →
       out.obs.time_of_day = (((n + 1) % cfg.day_length : ℤ) : ℚ)) ∧
    (∀ (t : ℚ) (n : ℤ), t = (n : ℚ) → next_hour cfg t = (n + 1) % cfg.day_length) := by
  have key : ∀ (t : ℚ) (n : ℤ), t = (n : ℚ) →
      fmod (t + 1) (cfg.day_length : ℚ) = (((n + 1) % cfg.day_length : ℤ) : ℚ) := by
    intro t n hteq
    subst hteq
    have hc : ((n : ℚ) + 1) = ((n + 1 : ℤ) : ℚ) := by push_cast; ring
    rw [hc, fmod_intCast _ _ hL]
  refine ⟨?_, ?_, ?_⟩
  · intro e g hcfg
    unfold reset
    dsimp only
    refine ⟨_, rfl, ?_, ?_⟩
    · exact (integersSample_mem _ 6 9 (by norm_num)).1
    · exact (integersSample_mem _ 6 9 (by norm_num)).2
  · intro e s a e1 out n hcfg hs hteq h
    obtain ⟨s2, hs2, ha⟩ := stepE_ok_inv mtanh e a e1 out h
    rw [hs] at hs2
    have hss : s2 = s := (Option.some.inj hs2).symm
    subst hss
    rw [stepE_ok_eq mtanh e s2 a hs ha] at h
    injection h with hEnv hOut
    injection hOut with hOut
    subst hOut
    show (postState mtanh e s2 a).time_of_day = _
    rw [postState_time, hcfg]
    exact key s2.time_of_day n hteq
  · intro t n hteq
    unfold next_hour
    rw [key t n hteq]
    exact Int.floor_intCast _

/-- Witness for C10 at the default configuration: from hour 6 the anticipated
meal hour is 7. -/
theorem claim10_witness :
    (0 : ℤ) < defaultCfg.day_length ∧
      next_hour defaultCfg 6 = (6 + 1) % defaultCfg.day_length :=
  ⟨by decide,
   (claim10_time_integrality (fun _ => 0) defaultCfg (by decide)).2.2 6 6 (by norm_num)⟩

/-- The steps field of the current state (0 when the state is undefined). -/
def stepsVal (e : Env) : ℚ := (e.state.map StateVec.steps).getD 0

/-- The steps field, when defined, lies in `[0, max_daily_steps]`. -/
def StepsOk (e : Env) : Prop :=
  ∀ s, e.state = some s → 0 ≤ s.steps ∧ s.steps ≤ e.cfg.max_daily_steps

theorem stepEnv_of_none (mtanh : ℚ → ℚ) (e : Env) (a : ℤ) (h : e.state = none) :
    stepEnv mtanh e a = e := by
  unfold stepEnv stepE
  rw [h]

theorem stepEnv_of_invalid (mtanh : ℚ → ℚ) (e : Env) (a : ℤ) (s : StateVec)
    (h : e.state = some s) (ha : ¬ (0 ≤ a ∧ a < 4)) : stepEnv mtanh e a = e := by
  unfold stepEnv stepE
  rw [h]
  dsimp only
  rw [if_neg ha]

/-- One engine step never decreases the steps field and keeps it capped. -/
theorem stepEnv_steps_mono (mtanh : ℚ → ℚ) (e : Env) (a : ℤ) (hOk : StepsOk e) :
    stepsVal e ≤ stepsVal (stepEnv mtanh e a) ∧ StepsOk (stepEnv mtanh e a) := by
  cases hst : e.state with
  | none =>
    rw [stepEnv_of_none mtanh e a hst]
    exact ⟨le_refl _, hOk⟩
  | some s =>
    by_cases ha : 0 ≤ a ∧ a < 4
    · have he := stepE_ok_eq mtanh e s a hst ha
      have henv : stepEnv mtanh e a =
          { e with state := some (postState mtanh e s a), step_count := e.step_count + 1,
                   last_action := a, rng := postRNG e s a } := by
        unfold stepEnv
        rw [he]
      obtain ⟨h0, hM⟩ := hOk s hst
      have hval : stepsVal e = s.steps := by
        unfold stepsVal
        rw [hst]
        rfl
      have hval2 : stepsVal (stepEnv mtanh e a) = (postState mtanh e s a).steps := by
        unfold stepsVal
        rw [henv]
        rfl
      constructor
      · rw [hval, hval2, postState_steps]
        exact le_min (le_add_of_nonneg_right (profile_gain_nonneg a)) hM
      · intro s' hs'
        rw [henv] at hs'
        have hpost : postState mtanh e s a = s' := Option.some.inj hs'
        subst hpost
        rw [henv, postState_steps]
        refine ⟨le_min (add_nonneg h0 (profile_gain_nonneg a)) (le_trans h0 hM), ?_⟩
        exact min_le_right _ _
    · rw [stepEnv_of_invalid mtanh e a s hst ha]
      exact ⟨le_refl _, hOk⟩

/-- Claim C9: each successful `step` updates steps to
`min(steps + step_gain, max_daily_steps)`, which never decreases it and never
exceeds the cap; hence along any action sequence within an episode the steps
field is non-decreasing and stays at most `max_daily_steps`. -/
theorem claim9_steps_monotone (mtanh : ℚ → ℚ) :
    (∀ e s a e1 out, e.state = some s → stepE mtanh e a = (e1, Except.ok out) →
       out.obs.steps = min (s.steps + (profileOf a).step_gain) e.cfg.max_daily_steps ∧
       (0 ≤ s.steps → s.steps ≤ e.cfg.max_daily_steps →
          s.steps ≤ out.obs.steps ∧ out.obs.steps ≤ e.cfg.max_daily_steps)) ∧
    (∀ e acts, StepsOk e → stepsVal e ≤ stepsVal (runActions mtanh e acts) ∧
       StepsOk (runActions mtanh e acts)) := by
  constructor
  · intro e s a e1 out hs h
    obtain ⟨s2, hs2, ha⟩ := stepE_ok_inv mtanh e a e1 out h
    rw [hs] at hs2
    have hss : s2 = s := (Option.some.inj hs2).symm
    subst hss
    rw [stepE_ok_eq mtanh e s2 a hs ha] at h
    injection h with hEnv hOut
    injection hOut with hOut
    subst hOut
    refine ⟨postState_steps mtanh e s2 a, fun h0 hM => ?_⟩
    show s2.steps ≤ (postState mtanh e s2 a).steps ∧
      (postState mtanh e s2 a).steps ≤ e.cfg.max_daily_steps
    rw [postState_steps]
    exact ⟨le_min (le_add_of_nonneg_right (profile_gain_nonneg a)) hM, min_le_right _ _⟩
  · intro e acts
    induction acts generalizing e with
    | nil => exact fun hOk => ⟨le_refl _, hOk⟩
    | cons a rest ih =>
      intro hOk
      obtain ⟨h1, hOk'⟩ := stepEnv_steps_mono mtanh e a hOk
      obtain ⟨h2, hOk''⟩ := ih (stepEnv mtanh e a) hOk'
      simp only [runActions]
      exact ⟨le_trans h1 h2, hOk''⟩

/-- Witness for C9 at the concrete ready engine and a two-action episode. -/
theorem claim9_witness :
    stepsVal readyEnv ≤ stepsVal (runActions (fun _ => 0) readyEnv [1, 2]) :=
  ((claim9_steps_monotone (fun _ => 0)).2 readyEnv [1, 2]
    (fun s hs => by
      have h1 : sv0 = s := Option.some.inj hs
      subst h1
      constructor
      · norm_num [sv0]
      · norm_num [sv0, readyEnv, defaultCfg])).1

/-- Claim C6: two engines built with the same configuration (possibly holding
different pre-seed generator entropy), reset with the generator state produced
by the same seed, and driven by the same action sequence, produce identical
result sequences — observations, rewards, termination and truncation flags,
and info alike. -/
theorem claim6_determinism (mtanh : ℚ → ℚ) (args : InitArgs) (g0 g0' : RNG)
    (e1 e2 : Env) (g : RNG) (acts : List ℤ)
    (h1 : init args g0 = Except.ok e1) (h2 : init args g0' = Except.ok e2) :
    runOutputs mtanh (reset e1 g).1 acts = runOutputs mtanh (reset e2 g).1 acts := by
  unfold init at h1 h2
  split_ifs at h1 h2
  injection h1 with h1
  injection h2 with h2
  subst h1
  subst h2
  rfl

/-- The engine constructed with default arguments but different pre-seed
entropy. -/
def defaultEnvOne : Env := ⟨defaultCfg, defaultMeals, 72, none, 0, 0, rng1⟩

/-- Witness for C6: two default engines with different construction-time
entropy agree on a three-step trajectory after an identical seed. -/
theorem claim6_witness :
    runOutputs (fun _ => 0) (reset defaultEnv rng0).1 [0, 1, 2] =
      runOutputs (fun _ => 0) (reset defaultEnvOne rng0).1 [0, 1, 2] :=
  claim6_determinism (fun _ => 0) defaultArgs rng0 rng1 defaultEnv defaultEnvOne
    rng0 [0, 1, 2] rfl rfl

end Diabetes
